import Mathlib

/-!
Verification of the `external_options` server (src/server.js) against its
natural-language specification.  The file shallowly embeds the parts of the
code the claims are about:

* the `CWLarkAPI` token cache (`getToken` / `_getAppToken`, server.js:56-87),
* the record gateway (`getRecords`, server.js:99-121),
* the department-parameterized query methods and their filter construction
  (`getHOD` and friends, server.js:144-227),
* the HTTP handlers that format option lists (server.js:258-446),
* the envelope cipher described in spec §4.1, whose code is not under src/
  and is therefore modelled from the spec.

Upstream HTTP calls are modelled by passing their outcome as an explicit
argument; the number of upstream calls a code path performs is returned as
part of each operation's result so that call-count claims can be stated.
-/

namespace ExternalOptions

/-! ## Token cache (CWLarkAPI constructor state, server.js:44-50)

The singleton's mutable state is `this.token` (initially `null`) and
`this.tokenExpiry` (initially `0`).  JavaScript `null`/`undefined` are both
modelled as `none`; `tokenExpiry` holds UNIX seconds, an integer. -/

structure TokenCache where
  token : Option String
  tokenExpiry : Int
deriving Repr, DecidableEq

/-- The constructor state: `this.token = null; this.tokenExpiry = 0`. -/
def TokenCache.initial : TokenCache := ⟨none, 0⟩

/-- Outcome of the upstream auth POST (server.js:67).  On a 2xx response axios
resolves and `_getAppToken` reads `response.data["app_access_token"]`, which is
`undefined` (`none`) when the body lacks that field; on timeout, network error
or non-2xx status axios rejects (`err`). -/
inductive AuthOutcome where
  | ok (appAccessToken : Option String)
  | err
deriving Repr, DecidableEq

/-- Embedding of `_getAppToken` (server.js:56-73): returns the
`app_access_token` field of a 2xx response (possibly absent), and on any axios
rejection catches it and throws `Failed to get app token.`. -/
def getAppToken : AuthOutcome → Except String (Option String)
  | .ok t => .ok t
  | .err => .error "Failed to get app token."

/-- Result of one `getToken()` call: the value returned or the error thrown,
the cache state afterwards, and how many upstream auth calls were made. -/
structure GetTokenResult where
  result : Except String (Option String)
  state : TokenCache
  authCalls : Nat
deriving Repr

/-- Embedding of `getToken()` (server.js:79-87):

    if (currentTime - this.tokenExpiry > 3000) {
        this.token = await this._getAppToken();
        this.tokenExpiry = currentTime;
    }
    return this.token;

If `_getAppToken` throws, the assignments do not run and the error
propagates; otherwise the awaited value (even an absent field) is stored and
`tokenExpiry` is set to `currentTime`. -/
def getToken (st : TokenCache) (now : Int) (upstream : AuthOutcome) :
    GetTokenResult :=
  if now - st.tokenExpiry > 3000 then
    match getAppToken upstream with
    | .error e => ⟨.error e, st, 1⟩
    | .ok tok => ⟨.ok tok, ⟨tok, now⟩, 1⟩
  else ⟨.ok st.token, st, 0⟩

/-! ## Concurrent getToken calls

`getToken` is an `async` method running on Node's single-threaded event loop:
the staleness check executes atomically, but `await this._getAppToken()`
suspends the coroutine between the check and the assignments, so a second
caller entering during the suspension reads the pre-write state.  The
interleaving `A checks, B checks, A's fetch resolves and writes, B's fetch
resolves and writes` is therefore reachable; `getTokenInterleaved` embeds it
for two callers sharing one clock value. -/

/-- Results of two interleaved `getToken()` calls: what each caller gets, the
cache state after both, and the total number of upstream auth calls. -/
structure ConcurrentResult where
  resA : Except String (Option String)
  resB : Except String (Option String)
  state : TokenCache
  authCalls : Nat
deriving Repr

/-- Two concurrent `getToken()` calls under the interleaving in which both
staleness checks run before either `await` resolves.  When the cache is
stale, each caller observes `now - tokenExpiry > 3000` on the unmodified
state and starts its own upstream auth call; A's write lands first, B's
second (last write wins); a caller whose fetch rejects propagates the error
without writing.  When the cache is fresh, neither caller refreshes and both
return the shared cached token. -/
def getTokenInterleaved (st : TokenCache) (now : Int)
    (upA upB : AuthOutcome) : ConcurrentResult :=
  if now - st.tokenExpiry > 3000 then
    match getAppToken upA, getAppToken upB with
    | .ok ta, .ok tb => ⟨.ok ta, .ok tb, ⟨tb, now⟩, 2⟩
    | .ok ta, .error e => ⟨.ok ta, .error e, ⟨ta, now⟩, 2⟩
    | .error e, .ok tb => ⟨.error e, .ok tb, ⟨tb, now⟩, 2⟩
    | .error e, .error e2 => ⟨.error e, .error e2, st, 2⟩
  else ⟨.ok st.token, .ok st.token, st, 0⟩

/-! ## Record gateway (server.js:99-121) and filter construction -/

/-- A record of the Bitable list response: its `fields` object, a mapping from
field name to value, modelled as an association list. -/
structure LarkRecord where
  fields : List (String × String)
deriving Repr, DecidableEq

/-- JavaScript property access `record.fields[name]`: the first binding of
`name`, or `undefined` (`none`). -/
def lookupField (r : LarkRecord) (name : String) : Option String :=
  (r.fields.find? (fun p => p.1 == name)).map (·.2)

/-- The `data` object of a 2xx Bitable list response: the `items` array
(absent when upstream omits it) and the pagination markers `has_more` and
`page_token` that upstream reports for the page. -/
structure BitableData where
  items : Option (List LarkRecord)
  has_more : Bool
  page_token : String
deriving Repr, DecidableEq

/-- A 2xx Bitable list response body: its `data` object, absent when upstream
omits it. -/
structure BitableResponse where
  data : Option BitableData
deriving Repr, DecidableEq

/-- Outcome of the upstream record GET (server.js:111): a 2xx body, or an
axios rejection (network error, timeout, non-2xx status). -/
inductive FetchOutcome where
  | ok (resp : BitableResponse)
  | err
deriving Repr, DecidableEq

/-- Result of the body of `getRecords` after the token is available: the
value returned or the error thrown, and the number of upstream record-endpoint
calls made. -/
structure GetRecordsResult where
  result : Except String (List LarkRecord)
  recordCalls : Nat
deriving Repr

/-- Embedding of `getRecords` (server.js:99-121) as a function of the result
of `await this.getToken()` and the outcome of the single `axios.get`.  If
`getToken` throws, the error propagates before any record call (the GET sits
inside the `try`, the token acquisition outside it).  Otherwise one GET is
issued; a rejection is caught and rethrown as
`Failed to get records from Lark Base.`; a 2xx body missing `data` or
`data.items` yields `[]`; otherwise the `items` array is returned. -/
def getRecords (tokenResult : Except String (Option String))
    (up : FetchOutcome) : GetRecordsResult :=
  match tokenResult with
  | .error e => ⟨.error e, 0⟩
  | .ok _ =>
    match up with
    | .err => ⟨.error "Failed to get records from Lark Base.", 1⟩
    | .ok resp =>
      match resp.data with
      | none => ⟨.ok [], 1⟩
      | some d =>
        match d.items with
        | none => ⟨.ok [], 1⟩
        | some its => ⟨.ok its, 1⟩

/-- Result of a full `getRecords` run including the token cache: the records
or error, the cache state afterwards, and the upstream auth and record call
counts. -/
structure GetRecordsFull where
  result : Except String (List LarkRecord)
  state : TokenCache
  authCalls : Nat
  recordCalls : Nat
deriving Repr

/-- A `getRecords` invocation threaded through the token cache
(server.js:100 then 111). -/
def getRecordsRun (st : TokenCache) (now : Int) (authUp : AuthOutcome)
    (fetchUp : FetchOutcome) : GetRecordsFull :=
  let t := getToken st now authUp
  let r := getRecords t.result fetchUp
  ⟨r.result, t.state, t.authCalls, r.recordCalls⟩

/-- Embedding of the filter construction shared verbatim by `getHOD`,
`getHODLimit`, `get2ndTier`, `get2ndTierLimit` and `getCEO`
(server.js:147, 165, 183, 201, 219):

    const filters = `CurrentValue.[Department/ProductLine] = "${department}"`;

a template literal that interpolates the department with no escaping. -/
def buildDeptFilter (department : String) : String :=
  "CurrentValue.[Department/ProductLine] = \"" ++ department ++ "\""

/-- Number of double-quote characters in a string; the two delimiters of the
filter value contribute exactly 2, so any further quote is an unescaped quote
coming from the interpolated department. -/
def quoteCount (s : String) : Nat := s.data.count '"'

/-! ## Option formatting and HTTP handlers (server.js:258-446) -/

/-- An entry of the outgoing `options` array:
`{ id: options_id_i, value, isDefault: false }`.  The `value` is `none` when
the looked-up field was absent from the record. -/
structure OutOption where
  id : String
  value : Option String
  isDefault : Bool
deriving Repr, DecidableEq

/-- Embedding of `dataList.map((d, i) => ({ id: options_id_i, value: d,
isDefault: false }))`, the option formatting shared by every handler. -/
def formatOptions (dataList : List (Option String)) : List OutOption :=
  dataList.enum.map (fun p => ⟨"options_id_" ++ toString p.1, p.2, false⟩)

/-- The three response shapes a handler produces: the 200 success body with
its `options`, `hasMore` and `nextPageToken` fields; the 200
parameter-error body; and the 500 failure body. -/
inductive HandlerResponse where
  | success (options : List OutOption) (hasMore : Bool) (nextPageToken : String)
  | paramError
  | failed
deriving Repr, DecidableEq

/-- HTTP status, `code`, `msg` and `options` of each response shape, as
written in the handlers: `res.json` sends status 200. -/
def renderResponse : HandlerResponse → Nat × Nat × String × List OutOption
  | .success opts _ _ => (200, 0, "success!", opts)
  | .paramError => (200, 1, "Parameter error!", [])
  | .failed => (500, 1, "failed", [])

/-- Result of one handler invocation: the response, the token-cache state
afterwards, and the upstream auth and record call counts. -/
structure EndpointResult where
  resp : HandlerResponse
  state : TokenCache
  authCalls : Nat
  recordCalls : Nat
deriving Repr

/-- Embedding of the five department-parameterized POST handlers
(`/get_hod`, `/get_hod_limit`, `/get_2nd_tier`, `/get_2nd_tier_limit`,
`/get_ceo`, server.js:287-446), which are identical up to the queried field
name.  `department` is `req.body.linkage_params?.department`: `none` when
`linkage_params` or its `department` property is missing, `some ""` for an
empty string; both are falsy, so `if (!department)` returns the
parameter-error body before any upstream work.  Otherwise the corresponding
query method runs `getRecords` with filter `buildDeptFilter d` and maps each
record to its `fieldName` value, and the handler formats the options and
hardcodes `hasMore: false, nextPageToken: "xxxx"`; a thrown error is caught
and answered with the 500 failure body. -/
def handleDeptEndpoint (department : Option String) (fieldName : String)
    (st : TokenCache) (now : Int) (authUp : AuthOutcome)
    (fetchUp : FetchOutcome) : EndpointResult :=
  match department with
  | none => ⟨.paramError, st, 0, 0⟩
  | some d =>
    if d = "" then ⟨.paramError, st, 0, 0⟩
    else
      let r := getRecordsRun st now authUp fetchUp
      match r.result with
      | .error _ => ⟨.failed, r.state, r.authCalls, r.recordCalls⟩
      | .ok records =>
        ⟨.success
            (formatOptions (records.map (fun rec => lookupField rec fieldName)))
            false "xxxx",
          r.state, r.authCalls, r.recordCalls⟩

/-- Embedding of the `/get_department_product_line` handler
(server.js:258-281): no parameter check, query with empty filter, map each
record to its `Department/ProductLine` value, format options, hardcode
`hasMore: false, nextPageToken: "xxxx"`. -/
def handleGetDepartmentProductLine (st : TokenCache) (now : Int)
    (authUp : AuthOutcome) (fetchUp : FetchOutcome) : EndpointResult :=
  let r := getRecordsRun st now authUp fetchUp
  match r.result with
  | .error _ => ⟨.failed, r.state, r.authCalls, r.recordCalls⟩
  | .ok records =>
    ⟨.success
        (formatOptions
          (records.map (fun rec => lookupField rec "Department/ProductLine")))
        false "xxxx",
      r.state, r.authCalls, r.recordCalls⟩

/-- An entry of the array `getHOD` returns: `{ hod: record.fields.HOD }`. -/
structure HodEntry where
  hod : Option String
deriving Repr, DecidableEq

/-- Embedding of the normalization in `getHOD` (server.js:152-154):
`records.map(record => ({ hod: record.fields.HOD }))`. -/
def getHOD (records : List LarkRecord) : List HodEntry :=
  records.map (fun r => ⟨lookupField r "HOD"⟩)

/-! ## Envelope cipher (spec §4.1)

The EnvelopeCipher's code is not part of src/ (the repository ships only
server.js); the component is therefore modelled from the specification's own
algorithm description.  Bytes are naturals below 256. -/

/-- Modelled from the spec: `DerivedKey = Hash256(passphrase)` (§4.1 step 1).
The concrete hash's code is missing from src/, so it is modelled as a
deterministic digest with the spec's stated shape: a pure function of the
passphrase producing exactly 32 bytes regardless of passphrase length. -/
def deriveKeyModel (passphrase : String) : List Nat :=
  (List.range 32).map (fun i =>
    passphrase.data.foldl (fun acc c => (acc * 31 + c.toNat) % 256)
      ((i * 37 + 7) % 256))

/-- Modelled from the spec: standard block padding (§4.1 step 3) to a
multiple of the 16-byte block size, removable unambiguously on decode (the
PKCS#7 rule: always append `padLen` copies of `padLen`, a full block when the
plaintext is already aligned). -/
def pkcs7pad (msg : List Nat) : List Nat :=
  msg ++ List.replicate (16 - msg.length % 16) (16 - msg.length % 16)

/-- Bytewise exclusive or of two blocks. -/
def listXor (a b : List Nat) : List Nat :=
  List.zipWith (fun x y => x ^^^ y) a b

/-- Modelled from the spec: cipher-block-chaining encryption (§4.1 step 3)
over an abstract 16-byte block cipher `E` (the cipher-library code is missing
from src/): each plaintext block is xored with the previous ciphertext block
(the IV for the first) before enciphering. -/
def cbcEncrypt (E : List Nat → List Nat) (iv : List Nat) :
    List Nat → List Nat
  | [] => []
  | b :: rest =>
    let c := E (listXor iv (List.take 16 (b :: rest)))
    c ++ cbcEncrypt E c (List.drop 16 (b :: rest))
termination_by msg => msg.length
decreasing_by simp; omega

/-- The base64 alphabet character for a sextet. -/
def b64Char (n : Nat) : Char :=
  (("ABCDEFGHIJKLMNOPQRSTUVWXYZabcdefghijklmnopqrstuvwxyz0123456789+/").data.get?
    n).getD 'A'

/-- Position of a character in the base64 alphabet. -/
def b64Index (c : Char) : Nat :=
  ("ABCDEFGHIJKLMNOPQRSTUVWXYZabcdefghijklmnopqrstuvwxyz0123456789+/").data.indexOf
    c

/-- Grouping of bytes into base64 sextets, three bytes to four sextets, with
the standard truncated final groups. -/
def b64Sextets : List Nat → List Nat
  | b0 :: b1 :: b2 :: rest =>
    b0 / 4 :: ((b0 % 4) * 16 + b1 / 16) :: ((b1 % 16) * 4 + b2 / 64) ::
      b2 % 64 :: b64Sextets rest
  | [b0, b1] => [b0 / 4, (b0 % 4) * 16 + b1 / 16, (b1 % 16) * 4]
  | [b0] => [b0 / 4, (b0 % 4) * 16]
  | [] => []

/-- Regrouping of base64 sextets into bytes, inverse of `b64Sextets`. -/
def b64UnSextets : List Nat → List Nat
  | s0 :: s1 :: s2 :: s3 :: rest =>
    (s0 * 4 + s1 / 16) :: ((s1 % 16) * 16 + s2 / 4) :: ((s2 % 4) * 64 + s3) ::
      b64UnSextets rest
  | [s0, s1, s2] => [s0 * 4 + s1 / 16, (s1 % 16) * 16 + s2 / 4]
  | [s0, s1] => [s0 * 4 + s1 / 16]
  | _ => []

/-- Base64 encoding of a byte list, with `=` padding to a four-character
boundary. -/
def base64Encode (bytes : List Nat) : String :=
  String.mk ((b64Sextets bytes).map b64Char) ++
    (if bytes.length % 3 = 1 then "==" else
      if bytes.length % 3 = 2 then "=" else "")

/-- Base64 decoding of a string back to its byte list: padding characters are
dropped, the rest mapped to sextets and regrouped. -/
def base64Decode (s : String) : List Nat :=
  b64UnSextets ((s.data.filter (fun c => c != '=')).map b64Index)

/-- Modelled from the spec: `encrypt(plaintext, passphrase)` (§4.1): derive
the key, encrypt the padded plaintext in CBC mode under the abstract block
cipher `E` with the supplied fresh 16-byte IV, and base64-encode
`IV ‖ ciphertext` with no length prefix and no authentication tag. -/
def encryptEnvelope (E : List Nat → List Nat → List Nat)
    (passphrase : String) (iv plaintext : List Nat) : String :=
  base64Encode
    (iv ++ cbcEncrypt (E (deriveKeyModel passphrase)) iv (pkcs7pad plaintext))

/-- A concrete length-preserving, byte-bounded block cipher stand-in
(bytewise reduction mod 256), used to instantiate the abstract cipher at a
witness input. -/
def truncCipher (_k : List Nat) (b : List Nat) : List Nat :=
  b.map (fun x => x % 256)

/-! ## Helper lemmas -/

/-- A CBC ciphertext over a length-preserving, byte-bounded block cipher has
the padded message's length and stays below 256 bytewise. -/
theorem cbcEncrypt_spec (E : List Nat → List Nat)
    (hE : ∀ b : List Nat, b.length = 16 →
      (E b).length = 16 ∧ ∀ x ∈ E b, x < 256) :
    ∀ (iv msg : List Nat), iv.length = 16 → 16 ∣ msg.length →
      (cbcEncrypt E iv msg).length = msg.length ∧
      ∀ x ∈ cbcEncrypt E iv msg, x < 256 := by
  intro iv msg
  induction iv, msg using cbcEncrypt.induct E with
  | case1 iv => intro _ _; simp [cbcEncrypt]
  | case2 iv b rest c ih =>
    intro hiv hdvd
    have hlen : (b :: rest).length = rest.length + 1 := rfl
    have h16 : 16 ≤ (b :: rest).length := by
      rcases hdvd with ⟨k, hk⟩
      simp only [List.length_cons] at hk ⊢
      omega
    have htake : (List.take 16 (b :: rest)).length = 16 := by
      simp [List.length_take]
      omega
    have hxor : (listXor iv (List.take 16 (b :: rest))).length = 16 := by
      simp [listXor, List.length_zipWith]
      omega
    have hc := hE _ hxor
    have hdrop : 16 ∣ (List.drop 16 (b :: rest)).length := by
      rcases hdvd with ⟨k, hk⟩
      simp only [List.length_drop]
      exact ⟨k - 1, by omega⟩
    have ihr := ih hc.1 hdrop
    constructor
    · simp only [cbcEncrypt, List.length_append]
      rw [hc.1, ihr.1]
      simp only [List.length_drop]
      omega
    · simp only [cbcEncrypt, List.mem_append]
      rintro x (hx | hx)
      · exact hc.2 x hx
      · exact ihr.2 x hx

/-- Sextets of a byte list are below 64. -/
theorem b64Sextets_lt (bs : List Nat) (h : ∀ b ∈ bs, b < 256) :
    ∀ s ∈ b64Sextets bs, s < 64 := by
  induction bs using b64Sextets.induct with
  | case1 b0 b1 b2 rest ih =>
    have h0 : b0 < 256 := h b0 (by simp)
    have h1 : b1 < 256 := h b1 (by simp)
    have h2 : b2 < 256 := h b2 (by simp)
    intro s hs
    simp only [b64Sextets, List.mem_cons] at hs
    rcases hs with rfl | rfl | rfl | rfl | hs
    · omega
    · omega
    · omega
    · omega
    · exact ih (fun b hb => h b (by simp [hb])) s hs
  | case2 b0 b1 =>
    have h0 : b0 < 256 := h b0 (by simp)
    have h1 : b1 < 256 := h b1 (by simp)
    intro s hs
    simp only [b64Sextets, List.mem_cons] at hs
    rcases hs with rfl | rfl | rfl | hs
    · omega
    · omega
    · omega
    · simp at hs
  | case3 b0 =>
    have h0 : b0 < 256 := h b0 (by simp)
    intro s hs
    simp only [b64Sextets, List.mem_cons] at hs
    rcases hs with rfl | rfl | hs
    · omega
    · omega
    · simp at hs
  | case4 => intro s hs; simp [b64Sextets] at hs

/-- Regrouping sextets undoes grouping, for genuine bytes. -/
theorem b64UnSextets_b64Sextets (bs : List Nat) (h : ∀ b ∈ bs, b < 256) :
    b64UnSextets (b64Sextets bs) = bs := by
  induction bs using b64Sextets.induct with
  | case1 b0 b1 b2 rest ih =>
    have h0 : b0 < 256 := h b0 (by simp)
    have h1 : b1 < 256 := h b1 (by simp)
    have h2 : b2 < 256 := h b2 (by simp)
    simp only [b64Sextets, b64UnSextets, List.cons.injEq]
    refine ⟨by omega, by omega, by omega,
      ih (fun b hb => h b (by simp [hb]))⟩
  | case2 b0 b1 =>
    have h0 : b0 < 256 := h b0 (by simp)
    have h1 : b1 < 256 := h b1 (by simp)
    simp only [b64Sextets, b64UnSextets, List.cons.injEq]
    refine ⟨by omega, by omega, trivial⟩
  | case3 b0 =>
    have h0 : b0 < 256 := h b0 (by simp)
    simp only [b64Sextets, b64UnSextets, List.cons.injEq]
    refine ⟨by omega, trivial⟩
  | case4 => rfl

/-- No character of the base64 alphabet is the padding character. -/
theorem b64Alphabet_ne :
    ∀ c ∈ ("ABCDEFGHIJKLMNOPQRSTUVWXYZabcdefghijklmnopqrstuvwxyz0123456789+/").data,
      c ≠ '=' := by decide

/-- A sextet character is never the padding character. -/
theorem b64Char_ne_eq (n : Nat) : b64Char n ≠ '=' := by
  unfold b64Char
  cases hg : ("ABCDEFGHIJKLMNOPQRSTUVWXYZabcdefghijklmnopqrstuvwxyz0123456789+/").data.get? n with
  | none => simp
  | some c =>
    simp only [Option.getD_some]
    exact b64Alphabet_ne c (List.get?_mem hg)

/-- Alphabet lookup inverts the sextet character map. -/
theorem b64Index_b64Char (n : Nat) (h : n < 64) : b64Index (b64Char n) = n := by
  have hall : ∀ m ∈ List.range 64, b64Index (b64Char m) = m := by decide
  exact hall n (List.mem_range.mpr h)

/-- Base64 decoding inverts base64 encoding on byte lists. -/
theorem base64_roundtrip (bs : List Nat) (h : ∀ b ∈ bs, b < 256) :
    base64Decode (base64Encode bs) = bs := by
  unfold base64Encode base64Decode
  rw [String.data_append, List.filter_append]
  have h1 : List.filter (fun c => c != '=') ((b64Sextets bs).map b64Char)
      = (b64Sextets bs).map b64Char := by
    rw [List.filter_eq_self]
    intro a ha
    rcases List.mem_map.mp ha with ⟨n, _, rfl⟩
    simpa using b64Char_ne_eq n
  have h2 : List.filter (fun c => c != '=')
      ((if bs.length % 3 = 1 then "==" else
        if bs.length % 3 = 2 then "=" else "") : String).data = [] := by
    split
    · decide
    · split
      · decide
      · decide
  have hmk : (String.mk ((b64Sextets bs).map b64Char)).data
      = (b64Sextets bs).map b64Char := rfl
  rw [hmk, h1, h2, List.append_nil, List.map_map]
  have h3 : (b64Sextets bs).map (b64Index ∘ b64Char) = b64Sextets bs := by
    have hlt := b64Sextets_lt bs h
    calc (b64Sextets bs).map (b64Index ∘ b64Char)
        = (b64Sextets bs).map id := by
          apply List.map_congr_left
          intro a ha
          exact b64Index_b64Char a (hlt a ha)
      _ = b64Sextets bs := List.map_id _
  rw [h3]
  exact b64UnSextets_b64Sextets bs h

/-- The padded plaintext is a positive multiple of the block size long. -/
theorem pkcs7pad_spec (msg : List Nat) :
    (pkcs7pad msg).length % 16 = 0 ∧ 0 < (pkcs7pad msg).length := by
  simp only [pkcs7pad, List.length_append, List.length_replicate]
  constructor <;> omega

/-! ## Claim C1 -/

/-- C1.  Cache policy of `getToken`: when no credential has been obtained yet
(the constructor state, under any realistic clock value `3000 < now`) or more
than 3000 seconds have elapsed since the cached credential was stored, the
call performs exactly one upstream auth call, stores the returned token with
its issuance time set to `now`, and returns it; otherwise it returns the
cached token with the cache state completely unchanged and no upstream
call. -/
theorem getToken_cache_policy (st : TokenCache) (now : Int)
    (up : AuthOutcome) :
    (st = TokenCache.initial → 3000 < now →
      (getToken st now up).authCalls = 1 ∧
      ∀ tok, up = .ok tok →
        getToken st now up = ⟨.ok tok, ⟨tok, now⟩, 1⟩) ∧
    (3000 < now - st.tokenExpiry →
      (getToken st now up).authCalls = 1 ∧
      ∀ tok, up = .ok tok →
        getToken st now up = ⟨.ok tok, ⟨tok, now⟩, 1⟩) ∧
    (¬ 3000 < now - st.tokenExpiry →
      getToken st now up = ⟨.ok st.token, st, 0⟩) := by
  refine ⟨?_, ?_, ?_⟩
  · rintro rfl h
    simp only [getToken, TokenCache.initial]
    rw [if_pos (by omega)]
    cases up <;> simp [getAppToken]
  · intro h
    simp only [getToken]
    rw [if_pos (by omega)]
    cases up <;> simp [getAppToken]
  · intro h
    simp only [getToken]
    rw [if_neg (by omega)]

/-- Witness for `getToken_cache_policy` at concrete inputs: a first call at
`now = 5000` on the constructor state refreshes and stores the token, and a
second call 100 seconds later returns it unchanged with no upstream call. -/
theorem getToken_cache_policy_witness :
    getToken TokenCache.initial 5000 (.ok (some "tok")) =
      ⟨.ok (some "tok"), ⟨some "tok", 5000⟩, 1⟩ ∧
    getToken ⟨some "tok", 5000⟩ 5100 .err =
      ⟨.ok (some "tok"), ⟨some "tok", 5000⟩, 0⟩ := by
  constructor
  · exact (getToken_cache_policy TokenCache.initial 5000
      (.ok (some "tok"))).1 rfl (by omega) |>.2 (some "tok") rfl
  · exact (getToken_cache_policy ⟨some "tok", 5000⟩ 5100 .err).2.2 (by decide)

/-! ## Claim C2 -/

/-- C2 counterexample.  A 2xx auth response whose body lacks the
`app_access_token` field does not surface as a failure and does not leave the
cache unchanged: at the constructor state with `now = 5000`, `getToken`
returns success with an absent token, stores it, advances `tokenExpiry` to
5000, and the immediately following call (at `now = 5100`, within the margin)
returns the absent token with no upstream auth attempt. -/
theorem getToken_malformed_body_cached :
    getToken TokenCache.initial 5000 (.ok none) =
      ⟨.ok none, ⟨none, 5000⟩, 1⟩ ∧
    (getToken TokenCache.initial 5000 (.ok none)).state ≠ TokenCache.initial ∧
    getToken ⟨none, 5000⟩ 5100 (.ok (some "fresh")) =
      ⟨.ok none, ⟨none, 5000⟩, 0⟩ := by
  refine ⟨rfl, ?_, ?_⟩
  · simp [getToken, getAppToken, TokenCache.initial]
  · simp [getToken]

/-- C2 amended.  For the outcomes on which the HTTP client throws (timeout,
network error, non-2xx status), a stale-window `getToken` call propagates the
failure and leaves the cache state unchanged, so any later call that still
sees a stale cache attempts a fresh upstream auth call; but a 2xx response
lacking the token field is not detected: the absent token is stored with
`tokenExpiry = now`. -/
theorem getToken_failure_behavior (st : TokenCache) (now now2 : Int)
    (up2 : AuthOutcome) (hstale : 3000 < now - st.tokenExpiry) :
    getToken st now .err = ⟨.error "Failed to get app token.", st, 1⟩ ∧
    (3000 < now2 - st.tokenExpiry →
      (getToken st now2 up2).authCalls = 1) ∧
    getToken st now (.ok none) = ⟨.ok none, ⟨none, now⟩, 1⟩ := by
  refine ⟨?_, ?_, ?_⟩
  · simp only [getToken]
    rw [if_pos (by omega)]
    rfl
  · intro h2
    simp only [getToken]
    rw [if_pos (by omega)]
    cases up2 <;> simp [getAppToken]
  · simp only [getToken]
    rw [if_pos (by omega)]
    rfl

/-- Witness for `getToken_failure_behavior` at the constructor state and
`now = 5000`. -/
theorem getToken_failure_behavior_witness :
    getToken TokenCache.initial 5000 .err =
      ⟨.error "Failed to get app token.", TokenCache.initial, 1⟩ ∧
    (3000 < (5000 : Int) - TokenCache.initial.tokenExpiry →
      (getToken TokenCache.initial 5000 .err).authCalls = 1) ∧
    getToken TokenCache.initial 5000 (.ok none) =
      ⟨.ok none, ⟨none, 5000⟩, 1⟩ :=
  getToken_failure_behavior TokenCache.initial 5000 5000 .err (by decide)

/-! ## Claim C3 -/

/-- C3 counterexample.  A department value containing double quotes is
interpolated verbatim: for the department `Sales" = "HR`, the constructed
FilterExpression contains four double quotes (two of them unescaped, injected
from the value) and literally equals a filter comparing against `Sales`
followed by extra control syntax, so it is not safely embeddable. -/
theorem buildDeptFilter_quote_injection :
    quoteCount (buildDeptFilter "Sales\" = \"HR") = 4 ∧
    quoteCount (buildDeptFilter "Sales\" = \"HR") ≠ 2 ∧
    buildDeptFilter "Sales\" = \"HR" =
      "CurrentValue.[Department/ProductLine] = \"Sales\" = \"HR\"" := by
  refine ⟨by decide, by decide, rfl⟩

/-- C3 amended.  The five department-parameterized query methods build their
FilterExpression by verbatim interpolation with no escaping, so the
expression is safely embeddable only for department strings that themselves
contain no double quote: for quote-free departments the filter contains
exactly the two delimiter quotes, while the department is always embedded
verbatim between them. -/
theorem buildDeptFilter_verbatim (d : String) (h : quoteCount d = 0) :
    buildDeptFilter d =
      "CurrentValue.[Department/ProductLine] = \"" ++ d ++ "\"" ∧
    quoteCount (buildDeptFilter d) = 2 := by
  refine ⟨rfl, ?_⟩
  unfold quoteCount buildDeptFilter
  unfold quoteCount at h
  rw [String.data_append, String.data_append, List.count_append,
    List.count_append, h]
  decide

/-- Witness for `buildDeptFilter_verbatim` at the quote-free department
`Sales`. -/
theorem buildDeptFilter_verbatim_witness :
    quoteCount "Sales" = 0 ∧
    (buildDeptFilter "Sales" =
      "CurrentValue.[Department/ProductLine] = \"" ++ "Sales" ++ "\"" ∧
    quoteCount (buildDeptFilter "Sales") = 2) :=
  ⟨by decide, buildDeptFilter_verbatim "Sales" (by decide)⟩

/-! ## Claim C4 -/

/-- C4 counterexample.  For an upstream page that reports `has_more = true`
(and a real continuation token), the `/get_department_product_line` handler
still answers with `hasMore = false` and the placeholder token `xxxx`: the
pagination markers the caller receives do not reflect the values upstream
reported. -/
theorem pagination_markers_hardcoded_cex :
    (handleGetDepartmentProductLine TokenCache.initial 5000 (.ok (some "tkn"))
        (.ok ⟨some ⟨some [⟨[("Department/ProductLine", "Sales")]⟩],
          true, "ptok"⟩⟩)).resp =
      .success [⟨"options_id_0", some "Sales", false⟩] false "xxxx" ∧
    (BitableData.mk (some [⟨[("Department/ProductLine", "Sales")]⟩])
        true "ptok").has_more = true ∧
    (false : Bool) ≠ true := by
  exact ⟨rfl, rfl, by decide⟩

/-- C4 amended.  Each `getRecords` invocation issues at most one upstream
record call, and exactly one whenever the token acquisition succeeded (no
automatic pagination beyond the first page); but the pagination markers are
not surfaced: `getRecords` discards upstream `has_more`/`page_token`, and
every success response of the handlers carries the hardcoded
`hasMore = false` and `nextPageToken = "xxxx"` whatever upstream reported. -/
theorem getRecords_single_call_markers (st : TokenCache) (now : Int)
    (authUp : AuthOutcome) (fetchUp : FetchOutcome) (dept : Option String)
    (fn : String) :
    (getRecordsRun st now authUp fetchUp).recordCalls ≤ 1 ∧
    ((∃ t, (getToken st now authUp).result = .ok t) →
      (getRecordsRun st now authUp fetchUp).recordCalls = 1) ∧
    (∀ opts hm pt,
      (handleDeptEndpoint dept fn st now authUp fetchUp).resp =
        .success opts hm pt → hm = false ∧ pt = "xxxx") ∧
    (∀ opts hm pt,
      (handleGetDepartmentProductLine st now authUp fetchUp).resp =
        .success opts hm pt → hm = false ∧ pt = "xxxx") := by
  have hcalls : ∀ tr : Except String (Option String),
      (getRecords tr fetchUp).recordCalls ≤ 1 := by
    intro tr
    cases tr with
    | error e => exact Nat.zero_le 1
    | ok t =>
      cases fetchUp with
      | err => exact Nat.le_refl 1
      | ok resp =>
        rcases resp with ⟨_ | ⟨_ | its, hm2, pt2⟩⟩ <;> exact Nat.le_refl 1
  refine ⟨hcalls _, ?_, ?_, ?_⟩
  · rintro ⟨t, ht⟩
    have hdef : (getRecordsRun st now authUp fetchUp).recordCalls =
        (getRecords (getToken st now authUp).result fetchUp).recordCalls := rfl
    rw [hdef, ht]
    cases fetchUp with
    | err => rfl
    | ok resp => rcases resp with ⟨_ | ⟨_ | its, hm2, pt2⟩⟩ <;> rfl
  · intro opts hm pt h
    cases dept with
    | none => simp [handleDeptEndpoint] at h
    | some d =>
      by_cases hd : d = ""
      · simp [handleDeptEndpoint, hd] at h
      · rcases hr : (getRecordsRun st now authUp fetchUp).result with e | records
        · simp [handleDeptEndpoint, hd, hr] at h
        · simp [handleDeptEndpoint, hd, hr] at h
          exact ⟨h.2.1, h.2.2.symm⟩
  · intro opts hm pt h
    rcases hr : (getRecordsRun st now authUp fetchUp).result with e | records
    · simp [handleGetDepartmentProductLine, hr] at h
    · simp [handleGetDepartmentProductLine, hr] at h
      exact ⟨h.2.1, h.2.2.symm⟩

/-- Witness for `getRecords_single_call_markers`: concrete fresh-cache run
with a successful auth and a one-row page reporting `has_more = true`. -/
theorem getRecords_single_call_markers_witness :
    ((getRecordsRun TokenCache.initial 5000 (.ok (some "tkn"))
        (.ok ⟨some ⟨some [], true, "ptok"⟩⟩)).recordCalls ≤ 1) ∧
    (getRecordsRun TokenCache.initial 5000 (.ok (some "tkn"))
        (.ok ⟨some ⟨some [], true, "ptok"⟩⟩)).recordCalls = 1 ∧
    (false = false ∧ "xxxx" = "xxxx") := by
  have h := getRecords_single_call_markers TokenCache.initial 5000
    (.ok (some "tkn")) (.ok ⟨some ⟨some [], true, "ptok"⟩⟩)
    (some "Sales") "HOD"
  exact ⟨h.1, h.2.1 ⟨some "tkn", rfl⟩,
    h.2.2.1 [] false "xxxx" rfl⟩

/-! ## Claim C5 -/

/-- C5.  A 2xx upstream payload whose `data` object is absent, or whose
`data.items` array is absent, is normalized by `getRecords` to the empty
record list with no error, exactly like a payload whose `items` array is
present but empty. -/
theorem getRecords_missing_container_empty (t : Option String)
    (d : BitableData) (hm : Bool) (pt : String) :
    getRecords (.ok t) (.ok ⟨none⟩) = ⟨.ok [], 1⟩ ∧
    (d.items = none → getRecords (.ok t) (.ok ⟨some d⟩) = ⟨.ok [], 1⟩) ∧
    getRecords (.ok t) (.ok ⟨some ⟨some [], hm, pt⟩⟩) = ⟨.ok [], 1⟩ := by
  refine ⟨rfl, ?_, rfl⟩
  intro h
  rcases d with ⟨items, hm2, pt2⟩
  simp only at h
  subst h
  rfl

/-- Witness for `getRecords_missing_container_empty` at a concrete malformed
payload whose `data` object has no `items`. -/
theorem getRecords_missing_container_empty_witness :
    getRecords (.ok (some "tkn")) (.ok ⟨none⟩) = ⟨.ok [], 1⟩ ∧
    ((BitableData.mk none true "pt").items = none →
      getRecords (.ok (some "tkn")) (.ok ⟨some ⟨none, true, "pt"⟩⟩) =
        ⟨.ok [], 1⟩) ∧
    getRecords (.ok (some "tkn")) (.ok ⟨some ⟨some [], true, "pt"⟩⟩) =
      ⟨.ok [], 1⟩ :=
  getRecords_missing_container_empty (some "tkn") ⟨none, true, "pt"⟩ true "pt"

/-! ## Claim C6 -/

/-- C6.  When the upstream record call rejects (network error, timeout or
non-2xx status), `getRecords` throws `Failed to get records from Lark Base.`
rather than fabricating a success value; every invocation makes at most one
upstream record call (no retry), and an invocation whose token acquisition
failed makes none and propagates that error. -/
theorem getRecords_failure_no_retry (t : Option String) (e : String)
    (fetchUp : FetchOutcome) :
    getRecords (.ok t) .err =
      ⟨.error "Failed to get records from Lark Base.", 1⟩ ∧
    (getRecords (.ok t) fetchUp).recordCalls ≤ 1 ∧
    (getRecords (.error e) fetchUp).recordCalls = 0 ∧
    getRecords (.error e) fetchUp = ⟨.error e, 0⟩ := by
  refine ⟨rfl, ?_, rfl, rfl⟩
  cases fetchUp with
  | err => exact Nat.le_refl 1
  | ok resp =>
    rcases resp with ⟨_ | ⟨_ | its, hm2, pt2⟩⟩ <;> exact Nat.le_refl 1

/-! ## Claim C7 -/

/-- C7 counterexample.  Two callers invoking `getToken` concurrently on a
stale cache (the constructor state at `now = 5000`) under the reachable
interleaving in which both checks precede both writes issue two upstream auth
calls, not one: the code has no single-flight coordination, so the claim's
"exactly one upstream auth call" fails and the callers do not share one
in-flight result (each gets its own fetched token). -/
theorem concurrent_refresh_two_calls_cex :
    (getTokenInterleaved TokenCache.initial 5000
        (.ok (some "t1")) (.ok (some "t2"))).authCalls = 2 ∧
    (getTokenInterleaved TokenCache.initial 5000
        (.ok (some "t1")) (.ok (some "t2"))).authCalls ≠ 1 ∧
    (getTokenInterleaved TokenCache.initial 5000
        (.ok (some "t1")) (.ok (some "t2"))).resA = .ok (some "t1") ∧
    (getTokenInterleaved TokenCache.initial 5000
        (.ok (some "t1")) (.ok (some "t2"))).resB = .ok (some "t2") := by
  refine ⟨rfl, by decide, rfl, rfl⟩

/-- C7 amended.  Under the interleaving in which both concurrent callers
check the stale cache before either write, each caller triggers its own
upstream auth call (two in total, each caller receiving its own result, the
second writer's token overwriting the first); only when the cache is fresh do
the concurrent callers share the cached credential with no upstream call. -/
theorem getToken_concurrent_redundant (st : TokenCache) (now : Int)
    (ta tb : String) (upA upB : AuthOutcome) :
    (3000 < now - st.tokenExpiry →
      getTokenInterleaved st now (.ok (some ta)) (.ok (some tb)) =
        ⟨.ok (some ta), .ok (some tb), ⟨some tb, now⟩, 2⟩ ∧
      (getTokenInterleaved st now upA upB).authCalls = 2) ∧
    (¬ 3000 < now - st.tokenExpiry →
      getTokenInterleaved st now upA upB =
        ⟨.ok st.token, .ok st.token, st, 0⟩) := by
  refine ⟨fun hstale => ⟨?_, ?_⟩, fun h => ?_⟩
  · simp only [getTokenInterleaved]
    rw [if_pos (by omega)]
    rfl
  · simp only [getTokenInterleaved]
    rw [if_pos (by omega)]
    cases upA <;> cases upB <;> rfl
  · simp only [getTokenInterleaved]
    rw [if_neg (by omega)]

/-- Witness for `getToken_concurrent_redundant`: the stale constructor state
at `now = 5000` yields two redundant refreshes, and a fresh cache at
`now = 100` yields none. -/
theorem getToken_concurrent_redundant_witness :
    (getTokenInterleaved TokenCache.initial 5000
        (.ok (some "ta")) (.ok (some "tb")) =
      ⟨.ok (some "ta"), .ok (some "tb"), ⟨some "tb", 5000⟩, 2⟩ ∧
    (getTokenInterleaved TokenCache.initial 5000 .err .err).authCalls = 2) ∧
    getTokenInterleaved TokenCache.initial 100 .err .err =
      ⟨.ok TokenCache.initial.token, .ok TokenCache.initial.token,
        TokenCache.initial, 0⟩ :=
  ⟨(getToken_concurrent_redundant TokenCache.initial 5000 "ta" "tb"
      .err .err).1 (by decide),
   (getToken_concurrent_redundant TokenCache.initial 100 "ta" "tb"
      .err .err).2 (by decide)⟩

/-! ## Claim C8 -/

/-- C8.  For every plaintext and passphrase, and every fresh 16-byte IV and
length-preserving byte-bounded block cipher, the encoded envelope
base64-decodes exactly to the IV (16 bytes) followed by the CBC ciphertext,
whose length is a positive multiple of the 16-byte block size — also for the
empty plaintext — matching the wire layout `base64(IV[16] ‖ CBC-Ciphertext)`
with no length prefix and no authentication tag. -/
theorem encryptEnvelope_layout (E : List Nat → List Nat → List Nat)
    (passphrase : String) (iv plaintext : List Nat)
    (hiv : iv.length = 16) (hivb : ∀ x ∈ iv, x < 256)
    (hE : ∀ key b : List Nat, b.length = 16 →
      (E key b).length = 16 ∧ ∀ x ∈ E key b, x < 256) :
    base64Decode (encryptEnvelope E passphrase iv plaintext) =
      iv ++ cbcEncrypt (E (deriveKeyModel passphrase)) iv (pkcs7pad plaintext) ∧
    iv.length = 16 ∧
    (cbcEncrypt (E (deriveKeyModel passphrase)) iv
      (pkcs7pad plaintext)).length % 16 = 0 ∧
    0 < (cbcEncrypt (E (deriveKeyModel passphrase)) iv
      (pkcs7pad plaintext)).length := by
  have hpk := pkcs7pad_spec plaintext
  have hdvd : 16 ∣ (pkcs7pad plaintext).length := Nat.dvd_of_mod_eq_zero hpk.1
  have hcbc := cbcEncrypt_spec (E (deriveKeyModel passphrase))
      (fun b hb => hE _ b hb) iv (pkcs7pad plaintext) hiv hdvd
  refine ⟨?_, hiv, ?_, ?_⟩
  · unfold encryptEnvelope
    apply base64_roundtrip
    intro x hx
    rcases List.mem_append.mp hx with hx | hx
    · exact hivb x hx
    · exact hcbc.2 x hx
  · rw [hcbc.1]; exact hpk.1
  · rw [hcbc.1]; exact hpk.2

/-- Witness for `encryptEnvelope_layout`: the empty plaintext under the
passphrase `secret`, a zero IV and the concrete stand-in cipher. -/
theorem encryptEnvelope_layout_witness :
    base64Decode (encryptEnvelope truncCipher "secret"
        (List.replicate 16 0) []) =
      List.replicate 16 0 ++
        cbcEncrypt (truncCipher (deriveKeyModel "secret"))
          (List.replicate 16 0) (pkcs7pad []) ∧
    (List.replicate 16 0 : List Nat).length = 16 ∧
    (cbcEncrypt (truncCipher (deriveKeyModel "secret"))
      (List.replicate 16 0) (pkcs7pad [])).length % 16 = 0 ∧
    0 < (cbcEncrypt (truncCipher (deriveKeyModel "secret"))
      (List.replicate 16 0) (pkcs7pad [])).length :=
  encryptEnvelope_layout truncCipher "secret" (List.replicate 16 0) []
    (by simp) (by simp)
    (fun key b hb =>
      ⟨by simp [truncCipher, hb],
       fun x hx => by
        rcases List.mem_map.mp hx with ⟨y, _, rfl⟩
        exact Nat.mod_lt _ (by omega)⟩)

/-! ## Claim C9 -/

/-- C9.  The `getHOD` normalization and the `/get_hod` option formatting are
length-preserving and order-preserving: normalized record `i` holds upstream
item `i`'s `HOD` field, output option `i` has id `options_id_i` and item
`i`'s value; and the concrete two-item upstream response with `HOD` values
`Alice` then `Bob` yields exactly the two options in that order. -/
theorem getHOD_order_preserving (records : List LarkRecord)
    (dataList : List (Option String)) :
    (getHOD records).length = records.length ∧
    (∀ i, (getHOD records).get? i =
      (records.get? i).map (fun r => ⟨lookupField r "HOD"⟩)) ∧
    (formatOptions dataList).length = dataList.length ∧
    (∀ i, (formatOptions dataList).get? i =
      (dataList.get? i).map
        (fun v => ⟨"options_id_" ++ toString i, v, false⟩)) ∧
    (handleDeptEndpoint (some "Sales") "HOD" TokenCache.initial 5000
        (.ok (some "tkn"))
        (.ok ⟨some ⟨some [⟨[("HOD", "Alice")]⟩, ⟨[("HOD", "Bob")]⟩],
          false, "pt"⟩⟩)).resp =
      .success [⟨"options_id_0", some "Alice", false⟩,
        ⟨"options_id_1", some "Bob", false⟩] false "xxxx" := by
  refine ⟨by simp [getHOD], ?_, by simp [formatOptions], ?_, rfl⟩
  · intro i
    simp [getHOD, List.get?_map]
  · intro i
    simp only [formatOptions, List.get?_map, List.get?_enum, Option.map_map]
    cases dataList.get? i <;> rfl

/-! ## Claim C10 -/

/-- C10.  A POST to any of the five department-parameterized endpoints whose
body lacks a non-empty `linkage_params.department` (the property missing, or
an empty string — both falsy) is answered immediately with the HTTP 200
parameter-error body (`code` 1, `msg` `Parameter error!`, empty options) and
performs no upstream call at all: the token cache is untouched and the auth
and record call counts are zero. -/
theorem dept_endpoint_param_error (dept : Option String) (fn : String)
    (st : TokenCache) (now : Int) (authUp : AuthOutcome)
    (fetchUp : FetchOutcome) (h : dept = none ∨ dept = some "") :
    handleDeptEndpoint dept fn st now authUp fetchUp =
      ⟨.paramError, st, 0, 0⟩ ∧
    renderResponse .paramError = (200, 1, "Parameter error!", []) := by
  rcases h with rfl | rfl
  · exact ⟨rfl, rfl⟩
  · exact ⟨by simp [handleDeptEndpoint], rfl⟩

/-- Witness for `dept_endpoint_param_error`: a request with an empty
department, a stale cache and upstream calls that would fail if attempted. -/
theorem dept_endpoint_param_error_witness :
    ((some "" = none ∨ some "" = (some "" : Option String)) ∧
    (handleDeptEndpoint (some "") "HOD" TokenCache.initial 5000 .err .err =
      ⟨.paramError, TokenCache.initial, 0, 0⟩ ∧
    renderResponse .paramError = (200, 1, "Parameter error!", []))) :=
  ⟨Or.inr rfl,
    dept_endpoint_param_error (some "") "HOD" TokenCache.initial 5000
      .err .err (Or.inr rfl)⟩

end ExternalOptions
